import Mathlib

/-!
Verification of the image-editor core of `assignment3.py` (classes
`FilterSettings` and `ImageProcessor`).

Images are dense 2-D grids of pixels with three integer channels, stored
row-major as a flat list (mirroring the numpy array the code manipulates).
External OpenCV primitives that the code merely calls (`cv2.GaussianBlur`,
`cv2.resize`, `cv2.Canny`) are taken as function parameters constrained by
their documented shape contracts; the primitives whose pixel-level semantics
the claims depend on (`cv2.rotate`, `cv2.flip`, `cv2.convertScaleAbs`,
`cv2.cvtColor`) are modelled concretely from their documented behaviour.
-/

/-- One pixel: three integer channels (stored channel order of the array). -/
structure Pix where
  r : ℤ
  g : ℤ
  b : ℤ
deriving DecidableEq

/-- Map a function over the three channels of a pixel. -/
def Pix.map (f : ℤ → ℤ) (p : Pix) : Pix := ⟨f p.r, f p.g, f p.b⟩

/-- A 3-channel image: `h` rows, `w` columns, row-major flat pixel data
(the shape/content of the numpy arrays held by `ImageProcessor`). -/
structure Img where
  h : ℕ
  w : ℕ
  data : List Pix
deriving DecidableEq

/-- Well-formedness: the flat data has exactly `h * w` pixels. -/
def Img.WF (img : Img) : Prop := img.data.length = img.h * img.w

/-- Build an `h × w` image from a pixel-coordinate function. -/
def Img.ofFn (h w : ℕ) (f : ℕ → ℕ → Pix) : Img :=
  ⟨h, w, (List.range (h * w)).map fun i => f (i / w) (i % w)⟩

/-- Pixel access at row `r`, column `c` (row-major indexing). -/
def Img.pix (img : Img) (r c : ℕ) : Pix := img.data.getD (r * img.w + c) ⟨0, 0, 0⟩

/-- All channel values of the image lie in the 8-bit range `[0, 255]`. -/
def Img.Valid (img : Img) : Prop :=
  ∀ p ∈ img.data, 0 ≤ p.r ∧ p.r ≤ 255 ∧ 0 ≤ p.g ∧ p.g ≤ 255 ∧ 0 ≤ p.b ∧ p.b ≤ 255

theorem Img.ofFn_h (h w : ℕ) (f : ℕ → ℕ → Pix) : (Img.ofFn h w f).h = h := rfl

theorem Img.ofFn_w (h w : ℕ) (f : ℕ → ℕ → Pix) : (Img.ofFn h w f).w = w := rfl

theorem Img.ofFn_WF (h w : ℕ) (f : ℕ → ℕ → Pix) : (Img.ofFn h w f).WF := by
  simp [Img.WF, Img.ofFn]

theorem Img.pix_ofFn (h w : ℕ) (f : ℕ → ℕ → Pix) {r c : ℕ} (hr : r < h) (hc : c < w) :
    (Img.ofFn h w f).pix r c = f r c := by
  have hw : 0 < w := Nat.pos_of_ne_zero (by omega)
  have hlt : r * w + c < h * w := by
    calc r * w + c < r * w + w := by omega
    _ = (r + 1) * w := by ring
    _ ≤ h * w := Nat.mul_le_mul_right w hr
  have hlen : r * w + c < ((List.range (h * w)).map
      fun i => f (i / w) (i % w)).length := by simpa using hlt
  simp only [Img.pix, Img.ofFn]
  rw [List.getD_eq_getElem _ _ hlen]
  simp only [List.getElem_map, List.getElem_range]
  have hdiv : (r * w + c) / w = r := by
    rw [Nat.add_comm, Nat.add_mul_div_right _ _ hw, Nat.div_eq_of_lt hc, Nat.zero_add]
  have hmod : (r * w + c) % w = c := by
    rw [Nat.add_comm, Nat.add_mul_mod_self_right, Nat.mod_eq_of_lt hc]
  rw [hdiv, hmod]

theorem Img.ext_pix {a b : Img} (ha : a.WF) (hb : b.WF) (hh : a.h = b.h) (hw : a.w = b.w)
    (hpix : ∀ r c, r < a.h → c < a.w → a.pix r c = b.pix r c) : a = b := by
  obtain ⟨ah, aw, ad⟩ := a
  obtain ⟨bh, bw, bd⟩ := b
  simp only at hh hw
  subst hh; subst hw
  simp only [Img.WF] at ha hb
  have hdata : ad = bd := by
    apply List.ext_getElem (by rw [ha, hb])
    intro i h1 h2
    rw [ha] at h1
    have hwpos : 0 < aw := by
      rcases Nat.eq_zero_or_pos aw with h0 | h0
      · rw [h0, Nat.mul_zero] at h1
        exact absurd h1 (Nat.not_lt_zero _)
      · exact h0
    have hr : i / aw < ah := (Nat.div_lt_iff_lt_mul hwpos).mpr (by omega)
    have hc : i % aw < aw := Nat.mod_lt _ hwpos
    have hkey := hpix (i / aw) (i % aw) hr hc
    have hidx : i / aw * aw + i % aw = i := by
      have hdm := Nat.div_add_mod i aw
      rw [Nat.mul_comm] at hdm
      exact hdm
    simp only [Img.pix, hidx] at hkey
    rwa [List.getD_eq_getElem _ _ (by omega), List.getD_eq_getElem _ _ (by omega)] at hkey
  rw [hdata]

/-- Single-channel (grayscale) image, as produced by `cv2.cvtColor(_, RGB2GRAY)`. -/
structure GImg where
  h : ℕ
  w : ℕ
  data : List ℤ
deriving DecidableEq

/-- Build an `h × w` gray image from a coordinate function. -/
def GImg.ofFn (h w : ℕ) (f : ℕ → ℕ → ℤ) : GImg :=
  ⟨h, w, (List.range (h * w)).map fun i => f (i / w) (i % w)⟩

/-- Gray pixel access at row `r`, column `c`. -/
def GImg.pix (g : GImg) (r c : ℕ) : ℤ := g.data.getD (r * g.w + c) 0

/-- The rounding used by OpenCV's `cvRound`: round to nearest, ties to even. -/
def cvRound (q : ℚ) : ℤ :=
  if q - ⌊q⌋ = 1 / 2 then (if 2 ∣ ⌊q⌋ then ⌊q⌋ else ⌊q⌋ + 1) else ⌊q + 1 / 2⌋

/-- Saturation of an integer into the 8-bit range, as in `saturate_cast<uchar>`. -/
def sat255 (z : ℤ) : ℤ := max 0 (min 255 z)

/-- Per-channel action of `cv2.convertScaleAbs`: `saturate_cast<uchar>(|alpha*v + beta|)`. -/
def csaChan (alpha beta : ℚ) (v : ℤ) : ℤ := sat255 (cvRound |alpha * v + beta|)

/-- Model of `cv2.convertScaleAbs(img, alpha, beta)`: the per-channel affine-then-abs
map applied independently on every channel of every pixel. -/
def convertScaleAbs (alpha beta : ℚ) (img : Img) : Img :=
  Img.ofFn img.h img.w fun r c => (img.pix r c).map (csaChan alpha beta)

/-- Model of `cv2.rotate(img, ROTATE_90_CLOCKWISE)`: the result has the dimensions
swapped and `dst(r, c) = src(h - 1 - c, r)`. -/
def rotate90cw (img : Img) : Img :=
  Img.ofFn img.w img.h fun r c => img.pix (img.h - 1 - c) r

/-- Model of `cv2.flip(img, mode)`: `mode > 0` mirrors horizontally, `mode = 0`
vertically, `mode < 0` both. -/
def flipImg (mode : ℤ) (img : Img) : Img :=
  if mode = 0 then Img.ofFn img.h img.w fun r c => img.pix (img.h - 1 - r) c
  else if 0 < mode then Img.ofFn img.h img.w fun r c => img.pix r (img.w - 1 - c)
  else Img.ofFn img.h img.w fun r c => img.pix (img.h - 1 - r) (img.w - 1 - c)

/-- OpenCV's fixed-point luminance of one pixel (coefficients 0.299/0.587/0.114
at 14-bit fixed point), used by `cv2.cvtColor(_, COLOR_RGB2GRAY)`. -/
def lumaOf (p : Pix) : ℤ := (4899 * p.r + 9617 * p.g + 1868 * p.b + 8192) / 16384

/-- Model of `cv2.cvtColor(img, COLOR_RGB2GRAY)`. -/
def rgb2gray (img : Img) : GImg :=
  GImg.ofFn img.h img.w fun r c => lumaOf (img.pix r c)

/-- Model of `cv2.cvtColor(g, COLOR_GRAY2RGB)`: replicate the channel three times. -/
def gray2rgb (g : GImg) : Img :=
  Img.ofFn g.h g.w fun r c => ⟨g.pix r c, g.pix r c, g.pix r c⟩

/-- Model of `cv2.cvtColor(img, COLOR_BGR2RGB)` (and its inverse `RGB2BGR`):
swap the first and third channel of every pixel. -/
def swapRB (img : Img) : Img :=
  Img.ofFn img.h img.w fun r c => ⟨(img.pix r c).b, (img.pix r c).g, (img.pix r c).r⟩

/-- Python's `int()` on a (non-NaN) rational: truncation toward zero. -/
def pyInt (q : ℚ) : ℤ := if 0 ≤ q then ⌊q⌋ else -⌊-q⌋

theorem rotate90cw_h (img : Img) : (rotate90cw img).h = img.w := rfl

theorem rotate90cw_w (img : Img) : (rotate90cw img).w = img.h := rfl

theorem rotate90cw_WF (img : Img) : (rotate90cw img).WF := Img.ofFn_WF _ _ _

theorem rotate90cw_pix (img : Img) {r c : ℕ} (hr : r < img.w) (hc : c < img.h) :
    (rotate90cw img).pix r c = img.pix (img.h - 1 - c) r :=
  Img.pix_ofFn _ _ _ hr hc

/-- Rotating four times by 90° clockwise restores a well-formed image exactly. -/
theorem rotate90cw_four (img : Img) (hWF : img.WF) :
    rotate90cw (rotate90cw (rotate90cw (rotate90cw img))) = img := by
  apply Img.ext_pix (Img.ofFn_WF _ _ _) hWF rfl rfl
  intro r c hr hc
  have hr1 : r < img.h := hr
  have hc1 : c < img.w := hc
  have e1 : (rotate90cw (rotate90cw (rotate90cw (rotate90cw img)))).pix r c
      = (rotate90cw (rotate90cw (rotate90cw img))).pix (img.w - 1 - c) r :=
    rotate90cw_pix _ hr1 hc1
  have e2 : (rotate90cw (rotate90cw (rotate90cw img))).pix (img.w - 1 - c) r
      = (rotate90cw (rotate90cw img)).pix (img.h - 1 - r) (img.w - 1 - c) :=
    rotate90cw_pix _ (show img.w - 1 - c < img.w by omega) hr1
  have e3 : (rotate90cw (rotate90cw img)).pix (img.h - 1 - r) (img.w - 1 - c)
      = (rotate90cw img).pix (img.w - 1 - (img.w - 1 - c)) (img.h - 1 - r) :=
    rotate90cw_pix _ (show img.h - 1 - r < img.h by omega)
      (show img.w - 1 - c < img.w by omega)
  have e4 : (rotate90cw img).pix c (img.h - 1 - r)
      = img.pix (img.h - 1 - (img.h - 1 - r)) c :=
    rotate90cw_pix _ hc1 (show img.h - 1 - r < img.h by omega)
  have a1 : img.w - 1 - (img.w - 1 - c) = c := by omega
  have a2 : img.h - 1 - (img.h - 1 - r) = r := by omega
  have efin := e1.trans (e2.trans e3)
  rw [a1] at efin
  have efin2 := efin.trans e4
  rw [a2] at efin2
  exact efin2

theorem flipImg_h (mode : ℤ) (img : Img) : (flipImg mode img).h = img.h := by
  unfold flipImg
  split <;> [rfl; split <;> rfl]

theorem flipImg_w (mode : ℤ) (img : Img) : (flipImg mode img).w = img.w := by
  unfold flipImg
  split <;> [rfl; split <;> rfl]

/-- Integer inputs are fixed points of OpenCV rounding. -/
theorem cvRound_intCast (z : ℤ) : cvRound (z : ℚ) = z := by
  unfold cvRound
  rw [Int.floor_intCast]
  have hne : (z : ℚ) - z ≠ 1 / 2 := by
    rw [sub_self]
    norm_num
  rw [if_neg hne]
  rw [show ((z : ℚ) + 1 / 2) = (1 / 2 + (z : ℚ)) by ring, Int.floor_add_int]
  norm_num

/-- Floor of a natural number divided by 100, as rational division. -/
theorem floor_natCast_div_100 (m : ℕ) : ⌊(m : ℚ) / 100⌋ = ((m / 100 : ℕ) : ℤ) := by
  rw [Int.floor_eq_iff]
  constructor
  · rw [le_div_iff₀ (by norm_num : (0 : ℚ) < 100)]
    exact_mod_cast Nat.div_mul_le_self m 100
  · rw [div_lt_iff₀ (by norm_num : (0 : ℚ) < 100)]
    have h1 : m < (m / 100 + 1) * 100 := by omega
    push_cast
    exact_mod_cast h1

theorem pyInt_of_nonneg {q : ℚ} (h : 0 ≤ q) : pyInt q = ⌊q⌋ := if_pos h

/-- Truncation of a negative rational is not positive. -/
theorem pyInt_nonpos_of_neg {q : ℚ} (h : q < 0) : pyInt q ≤ 0 := by
  rw [pyInt, if_neg (not_le.mpr h)]
  have : (0 : ℤ) ≤ ⌊-q⌋ := Int.floor_nonneg.mpr (by linarith)
  omega

/-- If truncation produces a positive value, the rational lies in `[n, n + 1)`. -/
theorem pyInt_pos_bounds {q : ℚ} {n : ℤ} (hn : 0 < n) (h : pyInt q = n) :
    (n : ℚ) ≤ q ∧ q < n + 1 := by
  rcases le_or_lt 0 q with hq | hq
  · rw [pyInt_of_nonneg hq] at h
    subst h
    exact ⟨Int.floor_le q, by exact_mod_cast Int.lt_floor_add_one q⟩
  · exact absurd (h ▸ pyInt_nonpos_of_neg hq) (by omega)

/-- Truncation is at least `n` whenever the rational is at least `n ≥ 0`. -/
theorem le_pyInt_of_le {q : ℚ} {n : ℤ} (hn : 0 ≤ n) (h : (n : ℚ) ≤ q) : n ≤ pyInt q := by
  have hq : 0 ≤ q := le_trans (by exact_mod_cast hn) h
  rw [pyInt_of_nonneg hq]
  exact Int.le_floor.mpr h

/-!
The `FilterSettings` class: a plain holder of the five slider values with
their neutral defaults (`assignment3.py`, lines 12-25).  Contrast is a float
slider; we model its value (and the brightness/contrast arithmetic) over `ℚ`.
-/

structure FilterSettings where
  brightness : ℤ
  blur : ℤ
  contrast : ℚ
  scale : ℤ
  grayscale : Bool
deriving DecidableEq

/-- The field values installed by `FilterSettings.__init__`. -/
def FilterSettings.defaults : FilterSettings :=
  { brightness := 0, blur := 0, contrast := 1, scale := 100, grayscale := false }

/-- The `reset()` method: restore every field to its default. -/
def FilterSettings.reset (_s : FilterSettings) : FilterSettings := FilterSettings.defaults

/-- Exceptions that the Python code can raise out of an operation:
`cvError` models a `cv2.error` (OpenCV assertion failure on a `None` input),
`attributeError` a Python `AttributeError` (attribute access on `None`). -/
inductive PyErr
  | cvError
  | attributeError
deriving DecidableEq

/-!
The `ImageProcessor` class (`assignment3.py`, lines 29-136).  Its five
attributes become the fields below; `None` becomes `Option.none`.  Python's
in-place mutation is modelled by explicit state passing: every method returns
its Python return value (with raised exceptions as `Except.error`) paired
with the post-call state.  `.copy()` calls need no modelling because Lean
values are immutable; distinct stored values are automatically independent.
-/

structure ImageProcessor where
  true_original : Option Img
  original_image : Option Img
  current_image : Option Img
  history : List Img
  redo_stack : List Img
deriving DecidableEq

/-- The state built by `ImageProcessor.__init__`. -/
def ImageProcessor.new : ImageProcessor :=
  { true_original := none, original_image := none, current_image := none,
    history := [], redo_stack := [] }

/-- `load_file`: the external `cv2.imread` result is the input (`none` models a
failed decode, for which `imread` returns `None`).  On a decode failure the
subsequent `cv2.cvtColor(None, COLOR_BGR2RGB)` raises a `cv2.error` before any
attribute is assigned.  On success all state is reset for the new file and the
new `current_image` is returned. -/
def ImageProcessor.load_file (decoded : Option Img) (st : ImageProcessor) :
    Except PyErr Img × ImageProcessor :=
  match decoded with
  | none => (.error .cvError, st)
  | some bgr =>
    let rgb := swapRB bgr
    (.ok rgb,
      { true_original := some rgb, original_image := some rgb, current_image := some rgb,
        history := [], redo_stack := [] })

/-- `save_file`: returns `none` without writing if there is no current image,
else the BGR-converted image handed to the external `cv2.imwrite`.  The
processor state is never changed. -/
def ImageProcessor.save_file (st : ImageProcessor) : Option Img × ImageProcessor :=
  match st.current_image with
  | none => (none, st)
  | some cur => (some (swapRB cur), st)

/-- `revert_to_original`: returns `None` if nothing was ever loaded, else
resets the working image to a copy of the loaded file and clears both stacks. -/
def ImageProcessor.revert_to_original (st : ImageProcessor) :
    Option Img × ImageProcessor :=
  match st.true_original with
  | none => (none, st)
  | some orig =>
    (some orig,
      { st with original_image := some orig, history := [], redo_stack := [] })

/-- `save_state_for_undo`: if an image is loaded, append a copy of the working
image to `history` (Python appends at the end) and clear `redo_stack`. -/
def ImageProcessor.save_state_for_undo (st : ImageProcessor) : ImageProcessor :=
  match st.original_image with
  | none => st
  | some img => { st with history := st.history ++ [img], redo_stack := [] }

/-- `undo`: `if not self.history: return None` is the `getLast? = none` branch;
otherwise push a copy of the working image onto `redo_stack` and pop the last
`history` entry into it.  (With a nonempty history but no working image,
`None.copy()` would raise an `AttributeError`; that state is unreachable.) -/
def ImageProcessor.undo (st : ImageProcessor) :
    Except PyErr (Option Img) × ImageProcessor :=
  match st.history.getLast? with
  | none => (.ok none, st)
  | some prev =>
    match st.original_image with
    | none => (.error .attributeError, st)
    | some cur =>
      (.ok (some prev),
        { st with redo_stack := st.redo_stack ++ [cur],
                  original_image := some prev,
                  history := st.history.dropLast })

/-- `redo`: symmetric to `undo` with the two stacks exchanged. -/
def ImageProcessor.redo (st : ImageProcessor) :
    Except PyErr (Option Img) × ImageProcessor :=
  match st.redo_stack.getLast? with
  | none => (.ok none, st)
  | some nxt =>
    match st.original_image with
    | none => (.error .attributeError, st)
    | some cur =>
      (.ok (some nxt),
        { st with history := st.history ++ [cur],
                  original_image := some nxt,
                  redo_stack := st.redo_stack.dropLast })

/-- Lines 90-101 of `apply_transformations`: optional grayscale conversion,
then `cv2.convertScaleAbs(_, alpha=contrast, beta=brightness)`, then the
external `cv2.GaussianBlur` (parameter `gaussianBlur`, receiving the odd
kernel size `blur * 2 + 1`) when `blur > 0`. -/
def adjustStage (gaussianBlur : ℤ → Img → Img) (settings : FilterSettings)
    (base : Img) : Img :=
  let t1 := if settings.grayscale then gray2rgb (rgb2gray base) else base
  let t2 := convertScaleAbs settings.contrast (settings.brightness : ℚ) t1
  if 0 < settings.blur then gaussianBlur (settings.blur * 2 + 1) t2 else t2

/-- Lines 104-112 of `apply_transformations`: when `scale ≠ 100`, resize via
the external `cv2.resize` (parameter `resize`), passing the target width and
height exactly as the code computes them — `int()` truncation of
`shape * scale / 100`, then each dimension forced up to at least 1. -/
def resizeStage (resize : Img → ℤ → ℤ → Img) (settings : FilterSettings)
    (t3 : Img) : Img :=
  if settings.scale ≠ 100 then
    let width := pyInt ((t3.w : ℚ) * (settings.scale : ℚ) / 100)
    let height := pyInt ((t3.h : ℚ) * (settings.scale : ℚ) / 100)
    let width := if width < 1 then 1 else width
    let height := if height < 1 then 1 else height
    resize t3 width height
  else t3

/-- `apply_transformations`: the slider pipeline.  `gaussianBlur` and `resize`
are the external `cv2.GaussianBlur` and `cv2.resize(_, (width, height),
INTER_AREA)` primitives, passed as parameters.  The result overwrites
`current_image` and is returned. -/
def ImageProcessor.apply_transformations
    (gaussianBlur : ℤ → Img → Img) (resize : Img → ℤ → ℤ → Img)
    (settings : FilterSettings) (st : ImageProcessor) :
    Option Img × ImageProcessor :=
  match st.original_image with
  | none => (none, st)
  | some base =>
    let out := resizeStage resize settings (adjustStage gaussianBlur settings base)
    (some out, { st with current_image := some out })

theorem ImageProcessor.apply_transformations_loaded
    (gaussianBlur : ℤ → Img → Img) (resize : Img → ℤ → ℤ → Img)
    (s : FilterSettings) (st : ImageProcessor) (img : Img)
    (hbase : st.original_image = some img) :
    st.apply_transformations gaussianBlur resize s
      = (some (resizeStage resize s (adjustStage gaussianBlur s img)),
         { st with
             current_image :=
               some (resizeStage resize s (adjustStage gaussianBlur s img)) }) := by
  unfold ImageProcessor.apply_transformations
  obtain ⟨t0, oi, ci, hi, rs⟩ := st
  simp only at hbase
  subst hbase
  rfl

/-- `apply_canny_edge`: commit for undo, then grayscale, the external
`cv2.Canny(gray, 100, 200)` step (parameter `canny`), and channel
replication back to three channels.  On an unloaded processor the first
`cv2.cvtColor(None, ...)` raises a `cv2.error`. -/
def ImageProcessor.apply_canny_edge (canny : GImg → GImg) (st : ImageProcessor) :
    Except PyErr Img × ImageProcessor :=
  let st1 := st.save_state_for_undo
  match st1.original_image with
  | none => (.error .cvError, st1)
  | some base =>
    let img2 := gray2rgb (canny (rgb2gray base))
    (.ok img2, { st1 with original_image := some img2 })

/-- `rotate_90`: commit for undo, then rotate the working image 90° clockwise.
On an unloaded processor `cv2.rotate(None, ...)` raises a `cv2.error`. -/
def ImageProcessor.rotate_90 (st : ImageProcessor) :
    Except PyErr Img × ImageProcessor :=
  let st1 := st.save_state_for_undo
  match st1.original_image with
  | none => (.error .cvError, st1)
  | some base =>
    let img2 := rotate90cw base
    (.ok img2, { st1 with original_image := some img2 })

/-- `flip`: commit for undo, then mirror the working image (`1` horizontal,
`0` vertical).  On an unloaded processor `cv2.flip(None, ...)` raises. -/
def ImageProcessor.flip (mode : ℤ) (st : ImageProcessor) :
    Except PyErr Img × ImageProcessor :=
  let st1 := st.save_state_for_undo
  match st1.original_image with
  | none => (.error .cvError, st1)
  | some base =>
    let img2 := flipImg mode base
    (.ok img2, { st1 with original_image := some img2 })

/-- The state after a destructive edit that commits `prev` (the pre-edit
working image) and installs `next` as the new working image. -/
def ImageProcessor.committed (st : ImageProcessor) (prev next : Img) : ImageProcessor :=
  { st with history := st.history ++ [prev], redo_stack := [], original_image := some next }

theorem ImageProcessor.save_state_for_undo_loaded (st : ImageProcessor) (img : Img)
    (hbase : st.original_image = some img) :
    st.save_state_for_undo
      = { st with history := st.history ++ [img], redo_stack := [] } := by
  unfold ImageProcessor.save_state_for_undo
  rw [hbase]

theorem ImageProcessor.rotate_90_loaded (st : ImageProcessor) (img : Img)
    (hbase : st.original_image = some img) :
    st.rotate_90 = (.ok (rotate90cw img), st.committed img (rotate90cw img)) := by
  unfold ImageProcessor.rotate_90
  rw [ImageProcessor.save_state_for_undo_loaded st img hbase]
  simp only [hbase]
  rfl

theorem ImageProcessor.flip_loaded (mode : ℤ) (st : ImageProcessor) (img : Img)
    (hbase : st.original_image = some img) :
    st.flip mode = (.ok (flipImg mode img), st.committed img (flipImg mode img)) := by
  unfold ImageProcessor.flip
  rw [ImageProcessor.save_state_for_undo_loaded st img hbase]
  simp only [hbase]
  rfl

theorem ImageProcessor.apply_canny_edge_loaded (canny : GImg → GImg)
    (st : ImageProcessor) (img : Img) (hbase : st.original_image = some img) :
    st.apply_canny_edge canny
      = (.ok (gray2rgb (canny (rgb2gray img))),
         st.committed img (gray2rgb (canny (rgb2gray img)))) := by
  unfold ImageProcessor.apply_canny_edge
  rw [ImageProcessor.save_state_for_undo_loaded st img hbase]
  simp only [hbase]
  rfl

theorem ImageProcessor.undo_committed (st : ImageProcessor) (prev next : Img) :
    (st.committed prev next).undo
      = (.ok (some prev),
         { st with history := st.history, redo_stack := [next],
                   original_image := some prev }) := by
  unfold ImageProcessor.undo ImageProcessor.committed
  simp [List.getLast?_concat, List.dropLast_concat]

theorem ImageProcessor.redo_after_undo_committed (st : ImageProcessor) (prev next : Img) :
    ({ st with history := st.history, redo_stack := [next],
               original_image := some prev } : ImageProcessor).redo
      = (.ok (some next), st.committed prev next) := by
  unfold ImageProcessor.redo ImageProcessor.committed
  simp

/-- Statement pattern for C1: the destructive edit `op` (whose pixel-level action
is `T`) returns and installs `T img`; `undo` then returns and restores the exact
pre-edit working image `img`; a following `redo` returns `T img` and restores the
full post-edit state exactly. -/
def EditUndoRedoRoundTrip (op : ImageProcessor → Except PyErr Img × ImageProcessor)
    (T : Img → Img) (st : ImageProcessor) (img : Img) : Prop :=
  (op st).1 = .ok (T img) ∧
  (op st).2.original_image = some (T img) ∧
  ((op st).2.undo).1 = .ok (some img) ∧
  ((op st).2.undo).2.original_image = some img ∧
  (((op st).2.undo).2.redo).1 = .ok (some (T img)) ∧
  (((op st).2.undo).2.redo).2 = (op st).2

theorem roundTrip_of_commit (op : ImageProcessor → Except PyErr Img × ImageProcessor)
    (T : Img → Img) (st : ImageProcessor) (img : Img)
    (hop : op st = (.ok (T img), st.committed img (T img))) :
    EditUndoRedoRoundTrip op T st img := by
  unfold EditUndoRedoRoundTrip
  rw [hop]
  refine ⟨rfl, rfl, ?_, ?_, ?_, ?_⟩ <;>
    simp [ImageProcessor.undo_committed, ImageProcessor.redo_after_undo_committed]

/-- C1: for every loaded working image, each destructive edit
(`rotate_90`, `flip`, `apply_canny_edge`) followed by `undo` restores the exact
pre-edit base image, and a subsequent `redo` restores the exact post-edit base
image (indeed the whole post-edit state): `redo(undo(commit(img, T))) = T(img)`. -/
theorem c1_destructive_edit_undo_redo_roundtrip
    (st : ImageProcessor) (img : Img) (mode : ℤ) (canny : GImg → GImg)
    (hbase : st.original_image = some img) :
    EditUndoRedoRoundTrip ImageProcessor.rotate_90 rotate90cw st img ∧
    EditUndoRedoRoundTrip (ImageProcessor.flip mode) (flipImg mode) st img ∧
    EditUndoRedoRoundTrip (ImageProcessor.apply_canny_edge canny)
      (fun i => gray2rgb (canny (rgb2gray i))) st img :=
  ⟨roundTrip_of_commit _ _ _ _ (ImageProcessor.rotate_90_loaded st img hbase),
   roundTrip_of_commit _ _ _ _ (ImageProcessor.flip_loaded mode st img hbase),
   roundTrip_of_commit _ _ _ _ (ImageProcessor.apply_canny_edge_loaded canny st img hbase)⟩

/-- A concrete 1 × 1 loaded image used by witness instances. -/
def img1x1 : Img := ⟨1, 1, [⟨10, 20, 30⟩]⟩

/-- A processor that has just loaded `img1x1`. -/
def stLoaded1 : ImageProcessor :=
  ⟨some img1x1, some img1x1, some img1x1, [], []⟩

/-- Witness for C1 at a concrete loaded processor, horizontal flip mode and an
identity stand-in for the external Canny operator. -/
theorem c1_destructive_edit_undo_redo_roundtrip_witness :
    stLoaded1.original_image = some img1x1 ∧
    (EditUndoRedoRoundTrip ImageProcessor.rotate_90 rotate90cw stLoaded1 img1x1 ∧
     EditUndoRedoRoundTrip (ImageProcessor.flip 1) (flipImg 1) stLoaded1 img1x1 ∧
     EditUndoRedoRoundTrip (ImageProcessor.apply_canny_edge id)
       (fun i => gray2rgb (id (rgb2gray i))) stLoaded1 img1x1) :=
  ⟨rfl, c1_destructive_edit_undo_redo_roundtrip stLoaded1 img1x1 1 id rfl⟩

/-- C2: on a loaded processor, each destructive edit appends exactly one entry —
the pre-edit working image — to `history` and leaves `redo_stack` empty,
whatever `redo_stack` previously contained. -/
theorem c2_destructive_edit_grows_history_and_clears_redo
    (st : ImageProcessor) (img : Img) (mode : ℤ) (canny : GImg → GImg)
    (hbase : st.original_image = some img) :
    ((st.rotate_90).2.history = st.history ++ [img] ∧
      (st.rotate_90).2.redo_stack = []) ∧
    ((st.flip mode).2.history = st.history ++ [img] ∧
      (st.flip mode).2.redo_stack = []) ∧
    ((st.apply_canny_edge canny).2.history = st.history ++ [img] ∧
      (st.apply_canny_edge canny).2.redo_stack = []) := by
  rw [ImageProcessor.rotate_90_loaded st img hbase,
    ImageProcessor.flip_loaded mode st img hbase,
    ImageProcessor.apply_canny_edge_loaded canny st img hbase]
  exact ⟨⟨rfl, rfl⟩, ⟨rfl, rfl⟩, ⟨rfl, rfl⟩⟩

/-- A loaded processor with a nonempty redo stack, to witness that an edit
clears whatever redo history existed. -/
def stLoadedRedo : ImageProcessor :=
  ⟨some img1x1, some img1x1, some img1x1, [], [img1x1]⟩

/-- Witness for C2 at a concrete loaded processor whose redo stack is nonempty. -/
theorem c2_destructive_edit_grows_history_and_clears_redo_witness :
    stLoadedRedo.original_image = some img1x1 ∧
    (((stLoadedRedo.rotate_90).2.history = stLoadedRedo.history ++ [img1x1] ∧
       (stLoadedRedo.rotate_90).2.redo_stack = []) ∧
     ((stLoadedRedo.flip 0).2.history = stLoadedRedo.history ++ [img1x1] ∧
       (stLoadedRedo.flip 0).2.redo_stack = []) ∧
     ((stLoadedRedo.apply_canny_edge id).2.history = stLoadedRedo.history ++ [img1x1] ∧
       (stLoadedRedo.apply_canny_edge id).2.redo_stack = [])) :=
  ⟨rfl, c2_destructive_edit_grows_history_and_clears_redo stLoadedRedo img1x1 0 id rfl⟩

/-- C8: when the source cannot be decoded (`cv2.imread` returns `None` for an
unsupported format, corrupt data or a missing file), `load_file` fails — the
`cv2.cvtColor` call on the `None` image raises before any attribute is
assigned — and every piece of processor state keeps its prior value. -/
theorem c8_failed_decode_raises_and_preserves_state (st : ImageProcessor) :
    (ImageProcessor.load_file none st).1 = .error .cvError ∧
    (ImageProcessor.load_file none st).2.true_original = st.true_original ∧
    (ImageProcessor.load_file none st).2.original_image = st.original_image ∧
    (ImageProcessor.load_file none st).2.current_image = st.current_image ∧
    (ImageProcessor.load_file none st).2.history = st.history ∧
    (ImageProcessor.load_file none st).2.redo_stack = st.redo_stack ∧
    (ImageProcessor.load_file none st).2 = st :=
  ⟨rfl, rfl, rfl, rfl, rfl, rfl, rfl⟩

/-- Shape contract of the external `cv2.GaussianBlur`: it never changes the
image dimensions. -/
def BlurSpec (gaussianBlur : ℤ → Img → Img) : Prop :=
  ∀ k img, (gaussianBlur k img).h = img.h ∧ (gaussianBlur k img).w = img.w

/-- Shape contract of the external `cv2.resize(img, (width, height))`: the
result has exactly the requested dimensions (the code only ever passes
positive ones). -/
def ResizeSpec (resize : Img → ℤ → ℤ → Img) : Prop :=
  ∀ img wi hi, (resize img wi hi).h = hi.toNat ∧ (resize img wi hi).w = wi.toNat

/-- An identity stand-in for the external Gaussian blur, used in witnesses. -/
def blurStub : ℤ → Img → Img := fun _ img => img

/-- A nearest-neighbour stand-in for the external area resize, used in
witnesses; it honours the requested output dimensions. -/
def resizeStub : Img → ℤ → ℤ → Img := fun img wi hi =>
  Img.ofFn hi.toNat wi.toNat fun r c => img.pix (r * img.h / hi.toNat) (c * img.w / wi.toNat)

theorem blurStub_spec : BlurSpec blurStub := fun _ _ => ⟨rfl, rfl⟩

theorem resizeStub_spec : ResizeSpec resizeStub := fun _ _ _ => ⟨rfl, rfl⟩

/-- C9: on a loaded processor, `apply_transformations` only returns a fresh
image and overwrites the stored preview: the loaded file, the working image
and both history stacks are left exactly as they were. -/
theorem c9_render_preview_mutates_only_preview
    (gaussianBlur : ℤ → Img → Img) (resize : Img → ℤ → ℤ → Img)
    (s : FilterSettings) (st : ImageProcessor) (img : Img)
    (hbase : st.original_image = some img) :
    ∃ out : Img,
      (st.apply_transformations gaussianBlur resize s).1 = some out ∧
      (st.apply_transformations gaussianBlur resize s).2
        = { st with current_image := some out } ∧
      (st.apply_transformations gaussianBlur resize s).2.true_original
        = st.true_original ∧
      (st.apply_transformations gaussianBlur resize s).2.original_image
        = st.original_image ∧
      (st.apply_transformations gaussianBlur resize s).2.history = st.history ∧
      (st.apply_transformations gaussianBlur resize s).2.redo_stack = st.redo_stack := by
  unfold ImageProcessor.apply_transformations
  rw [hbase]
  exact ⟨_, rfl, rfl, rfl, rfl, rfl, rfl⟩

/-- Witness for C9 at a concrete loaded processor, default settings and
stand-ins for the external blur and resize primitives. -/
theorem c9_render_preview_mutates_only_preview_witness :
    stLoaded1.original_image = some img1x1 ∧
    (∃ out : Img,
      (stLoaded1.apply_transformations blurStub resizeStub FilterSettings.defaults).1
        = some out ∧
      (stLoaded1.apply_transformations blurStub resizeStub FilterSettings.defaults).2
        = { stLoaded1 with current_image := some out } ∧
      (stLoaded1.apply_transformations blurStub resizeStub
        FilterSettings.defaults).2.true_original = stLoaded1.true_original ∧
      (stLoaded1.apply_transformations blurStub resizeStub
        FilterSettings.defaults).2.original_image = stLoaded1.original_image ∧
      (stLoaded1.apply_transformations blurStub resizeStub
        FilterSettings.defaults).2.history = stLoaded1.history ∧
      (stLoaded1.apply_transformations blurStub resizeStub
        FilterSettings.defaults).2.redo_stack = stLoaded1.redo_stack) :=
  ⟨rfl, c9_render_preview_mutates_only_preview blurStub resizeStub
    FilterSettings.defaults stLoaded1 img1x1 rfl⟩

/-- Counterexample to C5: on a never-loaded processor no operation raises a
dedicated no-image error.  `revert_to_original`, `save_file`, `undo`, `redo`
and `apply_transformations` return their `none` results without failing and
without touching state, and the three geometry edits fail only with the
external library's `cv2.error` raised on the `None` working image. -/
theorem c5_counterexample :
    ImageProcessor.new.revert_to_original = (none, ImageProcessor.new) ∧
    ImageProcessor.new.save_file = (none, ImageProcessor.new) ∧
    ImageProcessor.new.undo = (.ok none, ImageProcessor.new) ∧
    ImageProcessor.new.redo = (.ok none, ImageProcessor.new) ∧
    ImageProcessor.new.apply_transformations blurStub resizeStub FilterSettings.defaults
      = (none, ImageProcessor.new) ∧
    (ImageProcessor.new.rotate_90).1 = .error .cvError ∧
    (ImageProcessor.new.flip 1).1 = .error .cvError ∧
    (ImageProcessor.new.apply_canny_edge id).1 = .error .cvError :=
  ⟨rfl, rfl, rfl, rfl, rfl, rfl, rfl, rfl⟩

/-- C5 as amended: on an unloaded processor (nothing loaded, empty stacks),
`save_file`, `revert_to_original`, `undo`, `redo` and `apply_transformations`
return a `none` sentinel and leave the state unchanged — they do not raise —
while `rotate_90`, `flip` and `apply_canny_edge` raise the external library's
`cv2.error` (there is no dedicated no-image error anywhere), also leaving the
state unchanged. -/
theorem c5_amended_unloaded_ops_noop_or_cv_error
    (gaussianBlur : ℤ → Img → Img) (resize : Img → ℤ → ℤ → Img)
    (canny : GImg → GImg) (mode : ℤ) (s : FilterSettings) (st : ImageProcessor)
    (h1 : st.true_original = none) (h2 : st.original_image = none)
    (h3 : st.current_image = none) (h4 : st.history = []) (h5 : st.redo_stack = []) :
    st.revert_to_original = (none, st) ∧
    st.save_file = (none, st) ∧
    st.undo = (.ok none, st) ∧
    st.redo = (.ok none, st) ∧
    st.apply_transformations gaussianBlur resize s = (none, st) ∧
    st.rotate_90 = (.error .cvError, st) ∧
    st.flip mode = (.error .cvError, st) ∧
    st.apply_canny_edge canny = (.error .cvError, st) := by
  obtain ⟨t0, oi, ci, hi, rs⟩ := st
  simp only at h1 h2 h3 h4 h5
  subst h1; subst h2; subst h3; subst h4; subst h5
  exact ⟨rfl, rfl, rfl, rfl, rfl, rfl, rfl, rfl⟩

/-- Witness for the amended C5 at the freshly constructed processor. -/
theorem c5_amended_unloaded_ops_noop_or_cv_error_witness :
    (ImageProcessor.new.true_original = none ∧
     ImageProcessor.new.original_image = none ∧
     ImageProcessor.new.current_image = none ∧
     ImageProcessor.new.history = [] ∧
     ImageProcessor.new.redo_stack = []) ∧
    (ImageProcessor.new.revert_to_original = (none, ImageProcessor.new) ∧
     ImageProcessor.new.save_file = (none, ImageProcessor.new) ∧
     ImageProcessor.new.undo = (.ok none, ImageProcessor.new) ∧
     ImageProcessor.new.redo = (.ok none, ImageProcessor.new) ∧
     ImageProcessor.new.apply_transformations blurStub resizeStub
       FilterSettings.defaults = (none, ImageProcessor.new) ∧
     ImageProcessor.new.rotate_90 = (.error .cvError, ImageProcessor.new) ∧
     ImageProcessor.new.flip 0 = (.error .cvError, ImageProcessor.new) ∧
     ImageProcessor.new.apply_canny_edge id = (.error .cvError, ImageProcessor.new)) :=
  ⟨⟨rfl, rfl, rfl, rfl, rfl⟩,
   c5_amended_unloaded_ops_noop_or_cv_error blurStub resizeStub id 0
     FilterSettings.defaults ImageProcessor.new rfl rfl rfl rfl rfl⟩

/-- With `alpha = 1`, `beta = 0`, `convertScaleAbs` fixes every 8-bit value. -/
theorem csaChan_id {v : ℤ} (h0 : 0 ≤ v) (h255 : v ≤ 255) : csaChan 1 0 v = v := by
  unfold csaChan
  rw [one_mul, add_zero, abs_of_nonneg (show (0 : ℚ) ≤ (v : ℚ) by exact_mod_cast h0),
    cvRound_intCast]
  unfold sat255
  omega

instance (img : Img) : Decidable img.WF := by
  unfold Img.WF
  infer_instance

instance (img : Img) : Decidable img.Valid := by
  unfold Img.Valid
  infer_instance

theorem Img.pix_mem (img : Img) (hWF : img.WF) {r c : ℕ}
    (hr : r < img.h) (hc : c < img.w) : img.pix r c ∈ img.data := by
  have hlt : r * img.w + c < img.data.length := by
    rw [hWF]
    calc r * img.w + c < r * img.w + img.w := by omega
    _ = (r + 1) * img.w := by ring
    _ ≤ img.h * img.w := Nat.mul_le_mul_right img.w hr
  rw [Img.pix, List.getD_eq_getElem _ _ hlt]
  exact List.getElem_mem _

/-- `cv2.convertScaleAbs` with neutral contrast and brightness is the identity
on well-formed images with 8-bit channel values. -/
theorem convertScaleAbs_id (img : Img) (hWF : img.WF) (hV : img.Valid) :
    convertScaleAbs 1 0 img = img := by
  apply Img.ext_pix (Img.ofFn_WF _ _ _) hWF rfl rfl
  intro r c hr hc
  have hr1 : r < img.h := hr
  have hc1 : c < img.w := hc
  have e1 : (convertScaleAbs 1 0 img).pix r c = (img.pix r c).map (csaChan 1 0) :=
    Img.pix_ofFn _ _ _ hr1 hc1
  obtain ⟨v1, v2, v3, v4, v5, v6⟩ := hV _ (img.pix_mem hWF hr1 hc1)
  have e2 : Pix.map (csaChan 1 0) (img.pix r c) = img.pix r c := by
    unfold Pix.map
    rw [csaChan_id v1 v2, csaChan_id v3 v4, csaChan_id v5 v6]
  exact e1.trans e2

/-- C6: with the neutral settings (`scale = 100`, `blur = 0`, `contrast = 1`,
`brightness = 0`, `grayscale = false`), `apply_transformations` on a loaded
processor returns an image pixel-identical to the working image and stores it
as the preview. -/
theorem c6_neutral_settings_render_identity
    (gaussianBlur : ℤ → Img → Img) (resize : Img → ℤ → ℤ → Img)
    (st : ImageProcessor) (img : Img)
    (hbase : st.original_image = some img) (hWF : img.WF) (hV : img.Valid) :
    st.apply_transformations gaussianBlur resize FilterSettings.defaults
      = (some img, { st with current_image := some img }) := by
  have hadj : adjustStage gaussianBlur FilterSettings.defaults img
      = convertScaleAbs 1 0 img := by
    unfold adjustStage FilterSettings.defaults
    norm_num
  have hpipe : resizeStage resize FilterSettings.defaults
      (adjustStage gaussianBlur FilterSettings.defaults img) = img := by
    rw [hadj, convertScaleAbs_id img hWF hV]
    unfold resizeStage FilterSettings.defaults
    norm_num
  rw [ImageProcessor.apply_transformations_loaded gaussianBlur resize
    FilterSettings.defaults st img hbase, hpipe]

/-- Witness for C6 at a concrete loaded processor and the stand-in primitives. -/
theorem c6_neutral_settings_render_identity_witness :
    (stLoaded1.original_image = some img1x1 ∧ img1x1.WF ∧ img1x1.Valid) ∧
    stLoaded1.apply_transformations blurStub resizeStub FilterSettings.defaults
      = (some img1x1, { stLoaded1 with current_image := some img1x1 }) :=
  ⟨⟨rfl, by decide, by decide⟩,
   c6_neutral_settings_render_identity blurStub resizeStub stLoaded1 img1x1 rfl
     (by decide) (by decide)⟩

theorem adjustStage_h (gaussianBlur : ℤ → Img → Img) (hb : BlurSpec gaussianBlur)
    (s : FilterSettings) (img : Img) : (adjustStage gaussianBlur s img).h = img.h := by
  simp only [adjustStage]
  split
  · rw [(hb _ _).1]
    show (if s.grayscale then gray2rgb (rgb2gray img) else img).h = img.h
    split <;> rfl
  · show (if s.grayscale then gray2rgb (rgb2gray img) else img).h = img.h
    split <;> rfl

theorem adjustStage_w (gaussianBlur : ℤ → Img → Img) (hb : BlurSpec gaussianBlur)
    (s : FilterSettings) (img : Img) : (adjustStage gaussianBlur s img).w = img.w := by
  simp only [adjustStage]
  split
  · rw [(hb _ _).2]
    show (if s.grayscale then gray2rgb (rgb2gray img) else img).w = img.w
    split <;> rfl
  · show (if s.grayscale then gray2rgb (rgb2gray img) else img).w = img.w
    split <;> rfl

theorem resizeStage_id (resize : Img → ℤ → ℤ → Img) (s : FilterSettings) (t3 : Img)
    (heq : s.scale = 100) : resizeStage resize s t3 = t3 := by
  simp only [resizeStage, heq]
  norm_num

theorem resizeStage_dims (resize : Img → ℤ → ℤ → Img) (hres : ResizeSpec resize)
    (s : FilterSettings) (t3 : Img) (hne : s.scale ≠ 100) :
    (resizeStage resize s t3).w
      = (max 1 (pyInt ((t3.w : ℚ) * (s.scale : ℚ) / 100))).toNat ∧
    (resizeStage resize s t3).h
      = (max 1 (pyInt ((t3.h : ℚ) * (s.scale : ℚ) / 100))).toNat := by
  simp only [resizeStage, if_pos hne]
  constructor
  · rw [(hres _ _ _).2]
    congr 1
    split <;> omega
  · rw [(hres _ _ _).1]
    congr 1
    split <;> omega

theorem pyInt_natCast_mul_div_100 (n : ℕ) (a : ℤ) (ha : 0 ≤ a) :
    pyInt ((n : ℚ) * (a : ℚ) / 100) = ((n * a.toNat / 100 : ℕ) : ℤ) := by
  have ha' : (0 : ℚ) ≤ (a : ℚ) := by exact_mod_cast ha
  have hq : (0 : ℚ) ≤ (n : ℚ) * (a : ℚ) / 100 := by positivity
  rw [pyInt_of_nonneg hq]
  have h2 : ((a.toNat : ℕ) : ℚ) = (a : ℚ) := by
    exact_mod_cast congrArg (fun z : ℤ => (z : ℚ)) (Int.toNat_of_nonneg ha)
  have hcast : (n : ℚ) * (a : ℚ) = ((n * a.toNat : ℕ) : ℚ) := by
    push_cast
    rw [h2]
  rw [hcast, floor_natCast_div_100]

theorem maxPyInt_toNat (n : ℕ) (a : ℤ) (ha : 0 ≤ a) :
    (max 1 (pyInt ((n : ℚ) * (a : ℚ) / 100))).toNat = max 1 (n * a.toNat / 100) := by
  rw [pyInt_natCast_mul_div_100 n a ha]
  omega

/-- Modelled from the spec: the claimed resize target length
`round(len * scale / 100)` clamped to a minimum of 1 (C4's stated formula). -/
def specRoundDim (len scale : ℤ) : ℤ := max 1 (round ((len : ℚ) * (scale : ℚ) / 100))

/-- A loaded processor holding a 1 × 1 image with channel value 30. -/
def img30 : Img := ⟨1, 1, [⟨30, 30, 30⟩]⟩

/-- Processor state that has loaded `img30`. -/
def stLoaded30 : ImageProcessor := ⟨some img30, some img30, some img30, [], []⟩

/-- Counterexample to C4: on a loaded 1 × 1 image with `scale = 150` the code
truncates `1 * 150 / 100 = 1.5` with `int()` and renders a 1 × 1 preview,
while the claimed `round` formula demands 2 × 2. -/
theorem c4_counterexample :
    ((stLoaded30.apply_transformations blurStub resizeStub
        ⟨0, 0, 1, 150, false⟩).1.map fun o => (o.h, o.w)) = some (1, 1) ∧
    specRoundDim 1 150 = 2 ∧ (1 : ℤ) ≠ 2 := by
  refine ⟨?_, ?_, by decide⟩
  · rw [ImageProcessor.apply_transformations_loaded blurStub resizeStub
      ⟨0, 0, 1, 150, false⟩ stLoaded30 img30 rfl]
    obtain ⟨hdw, hdh⟩ := resizeStage_dims resizeStub resizeStub_spec
      ⟨0, 0, 1, 150, false⟩ (adjustStage blurStub ⟨0, 0, 1, 150, false⟩ img30)
      (by decide)
    rw [adjustStage_w blurStub blurStub_spec ⟨0, 0, 1, 150, false⟩ img30] at hdw
    rw [adjustStage_h blurStub blurStub_spec ⟨0, 0, 1, 150, false⟩ img30] at hdh
    simp only [Option.map_some']
    rw [hdh, hdw]
    norm_num [pyInt, img30]
  · unfold specRoundDim
    norm_num [round_eq]

/-- C4 as amended: with `scale ≠ 100` in `[10, 200]`, `apply_transformations`
returns an image of dimensions `floor(w * scale / 100) × floor(h * scale / 100)`
(Python `int()` truncation, not rounding), each clamped to a minimum of 1, so
the pipeline never produces an empty image; `scale = 10` on 100 × 100 still
yields 10 × 10 and `scale = 200` yields 200 × 200. -/
theorem c4_amended_resize_dims_floor
    (gaussianBlur : ℤ → Img → Img) (resize : Img → ℤ → ℤ → Img)
    (hb : BlurSpec gaussianBlur) (hres : ResizeSpec resize)
    (st : ImageProcessor) (img : Img) (s : FilterSettings)
    (hbase : st.original_image = some img)
    (h10 : 10 ≤ s.scale) (h200 : s.scale ≤ 200) (hne : s.scale ≠ 100) :
    ∃ out : Img,
      (st.apply_transformations gaussianBlur resize s).1 = some out ∧
      out.w = max 1 (img.w * s.scale.toNat / 100) ∧
      out.h = max 1 (img.h * s.scale.toNat / 100) ∧
      1 ≤ out.w ∧ 1 ≤ out.h := by
  rw [ImageProcessor.apply_transformations_loaded gaussianBlur resize s st img hbase]
  obtain ⟨hdw, hdh⟩ := resizeStage_dims resize hres s (adjustStage gaussianBlur s img) hne
  rw [adjustStage_w gaussianBlur hb s img] at hdw
  rw [adjustStage_h gaussianBlur hb s img] at hdh
  have hs0 : (0 : ℤ) ≤ s.scale := by omega
  refine ⟨_, rfl, ?_, ?_, ?_, ?_⟩
  · rw [hdw, maxPyInt_toNat img.w s.scale hs0]
  · rw [hdh, maxPyInt_toNat img.h s.scale hs0]
  · rw [hdw]
    omega
  · rw [hdh]
    omega

/-- Witness for the amended C4 at a concrete loaded 1 × 1 image with
`scale = 50` and the stand-in primitives. -/
theorem c4_amended_resize_dims_floor_witness :
    (BlurSpec blurStub ∧ ResizeSpec resizeStub ∧
     stLoaded1.original_image = some img1x1 ∧
     (10 : ℤ) ≤ 50 ∧ (50 : ℤ) ≤ 200 ∧ (50 : ℤ) ≠ 100) ∧
    (∃ out : Img,
      (stLoaded1.apply_transformations blurStub resizeStub
        ⟨0, 0, 1, 50, false⟩).1 = some out ∧
      out.w = max 1 (img1x1.w * (50 : ℤ).toNat / 100) ∧
      out.h = max 1 (img1x1.h * (50 : ℤ).toNat / 100) ∧
      1 ≤ out.w ∧ 1 ≤ out.h) :=
  ⟨⟨blurStub_spec, resizeStub_spec, rfl, by decide, by decide, by decide⟩,
   c4_amended_resize_dims_floor blurStub resizeStub blurStub_spec resizeStub_spec
     stLoaded1 img1x1 ⟨0, 0, 1, 50, false⟩ rfl (by decide) (by decide) (by decide)⟩

/-- Modelled from the spec: the per-channel brightness/contrast map that C3
claims, `clamp(contrast * v + brightness, 0, 255)`. -/
def specClampChan (contrast : ℚ) (brightness : ℤ) (v : ℤ) : ℤ :=
  max 0 (min 255 (cvRound (contrast * v + brightness)))

/-- Counterexample to C3: with brightness `-100` and contrast `1` (both inside
their §3 domains) on channel value 30, the code's `cv2.convertScaleAbs`
computes `|1 * 30 - 100| = 70`, while the claimed clamp formula gives 0. -/
theorem c3_counterexample :
    ((stLoaded30.apply_transformations blurStub resizeStub
        ⟨-100, 0, 1, 100, false⟩).1.map fun o => (o.pix 0 0).r) = some 70 ∧
    specClampChan 1 (-100) 30 = 0 ∧ (70 : ℤ) ≠ 0 := by
  refine ⟨?_, ?_, by decide⟩
  · rw [ImageProcessor.apply_transformations_loaded blurStub resizeStub
      ⟨-100, 0, 1, 100, false⟩ stLoaded30 img30 rfl]
    rw [resizeStage_id resizeStub ⟨-100, 0, 1, 100, false⟩ _ rfl]
    have hadj : adjustStage blurStub ⟨-100, 0, 1, 100, false⟩ img30
        = convertScaleAbs 1 ((-100 : ℤ) : ℚ) img30 := by
      unfold adjustStage
      norm_num
    rw [hadj]
    simp only [Option.map_some']
    unfold convertScaleAbs
    rw [Img.pix_ofFn img30.h img30.w _ (by decide) (by decide)]
    have hpx : img30.pix 0 0 = ⟨30, 30, 30⟩ := by decide
    rw [hpx]
    norm_num [Pix.map, csaChan, cvRound, sat255]
  · unfold specClampChan cvRound
    norm_num

/-- C3 as amended: the brightness/contrast step of the preview pipeline maps
every 8-bit channel value `v`, independently on each channel, to
`saturate(round(|contrast * v + brightness|))` — OpenCV's `convertScaleAbs`
takes the absolute value of the affine result instead of clamping it below at
0 — and in particular brightness 50 with contrast 1 still maps channel value
200 to 250. -/
theorem c3_amended_bc_step_abs_formula
    (gaussianBlur : ℤ → Img → Img) (resize : Img → ℤ → ℤ → Img)
    (st : ImageProcessor) (img : Img) (alpha : ℚ) (beta : ℤ)
    (hbase : st.original_image = some img)
    (hbl : -100 ≤ beta) (hbu : beta ≤ 100)
    (hal : 1 / 2 ≤ alpha) (hau : alpha ≤ 3)
    {row col : ℕ} (hrow : row < img.h) (hcol : col < img.w) :
    ∃ out : Img,
      (st.apply_transformations gaussianBlur resize ⟨beta, 0, alpha, 100, false⟩).1
        = some out ∧
      out.pix row col
        = (img.pix row col).map (fun v => sat255 (cvRound |alpha * v + (beta : ℚ)|)) ∧
      csaChan 1 50 200 = 250 := by
  rw [ImageProcessor.apply_transformations_loaded gaussianBlur resize
    ⟨beta, 0, alpha, 100, false⟩ st img hbase]
  refine ⟨_, rfl, ?_, ?_⟩
  · rw [resizeStage_id resize ⟨beta, 0, alpha, 100, false⟩ _ rfl]
    have hadj : adjustStage gaussianBlur ⟨beta, 0, alpha, 100, false⟩ img
        = convertScaleAbs alpha (beta : ℚ) img := by
      unfold adjustStage
      norm_num
    rw [hadj]
    unfold convertScaleAbs
    rw [Img.pix_ofFn img.h img.w _ hrow hcol]
    rfl
  · norm_num [csaChan, cvRound, sat255]

/-- Witness for the amended C3 at a concrete loaded 1 × 1 image, contrast 1,
brightness 50 and the stand-in primitives. -/
theorem c3_amended_bc_step_abs_formula_witness :
    (stLoaded1.original_image = some img1x1 ∧
     (-100 : ℤ) ≤ 50 ∧ (50 : ℤ) ≤ 100 ∧ (1 / 2 : ℚ) ≤ 1 ∧ (1 : ℚ) ≤ 3 ∧
     0 < img1x1.h ∧ 0 < img1x1.w) ∧
    (∃ out : Img,
      (stLoaded1.apply_transformations blurStub resizeStub
        ⟨50, 0, 1, 100, false⟩).1 = some out ∧
      out.pix 0 0
        = (img1x1.pix 0 0).map (fun v => sat255 (cvRound |(1 : ℚ) * v + ((50 : ℤ) : ℚ)|)) ∧
      csaChan 1 50 200 = 250) :=
  ⟨⟨rfl, by decide, by decide, by norm_num, by norm_num, by decide, by decide⟩,
   @c3_amended_bc_step_abs_formula blurStub resizeStub stLoaded1 img1x1 1 50 rfl
     (by decide) (by decide) (by norm_num) (by norm_num) 0 0 (by decide) (by decide)⟩

/-- C10: on a loaded processor, one `rotate_90` swaps the dimensions
(new width = old height, new height = old width) and four successive
`rotate_90` calls restore the working image exactly — same dimensions,
pixel-identical content. -/
theorem c10_rotate_90_four_times_restores
    (st : ImageProcessor) (img : Img)
    (hbase : st.original_image = some img) (hWF : img.WF) :
    (rotate90cw img).h = img.w ∧ (rotate90cw img).w = img.h ∧
    (st.rotate_90).2.original_image = some (rotate90cw img) ∧
    ((st.rotate_90).2.rotate_90).2.original_image
      = some (rotate90cw (rotate90cw img)) ∧
    (((st.rotate_90).2.rotate_90).2.rotate_90).2.original_image
      = some (rotate90cw (rotate90cw (rotate90cw img))) ∧
    ((((st.rotate_90).2.rotate_90).2.rotate_90).2.rotate_90).2.original_image
      = some img := by
  have h1 := ImageProcessor.rotate_90_loaded st img hbase
  have hb1 : (st.rotate_90).2.original_image = some (rotate90cw img) := by
    rw [h1]
    rfl
  have h2 := ImageProcessor.rotate_90_loaded _ _ hb1
  have hb2 : ((st.rotate_90).2.rotate_90).2.original_image
      = some (rotate90cw (rotate90cw img)) := by
    rw [h2]
    rfl
  have h3 := ImageProcessor.rotate_90_loaded _ _ hb2
  have hb3 : (((st.rotate_90).2.rotate_90).2.rotate_90).2.original_image
      = some (rotate90cw (rotate90cw (rotate90cw img))) := by
    rw [h3]
    rfl
  have h4 := ImageProcessor.rotate_90_loaded _ _ hb3
  have hb4 : ((((st.rotate_90).2.rotate_90).2.rotate_90).2.rotate_90).2.original_image
      = some (rotate90cw (rotate90cw (rotate90cw (rotate90cw img)))) := by
    rw [h4]
    rfl
  rw [rotate90cw_four img hWF] at hb4
  exact ⟨rfl, rfl, hb1, hb2, hb3, hb4⟩

/-- A 1 × 2 image (one row, two distinct pixels), so rotations visibly swap
the dimensions. -/
def img1x2 : Img := ⟨1, 2, [⟨1, 1, 1⟩, ⟨2, 2, 2⟩]⟩

/-- A processor that has just loaded `img1x2`. -/
def stLoaded12 : ImageProcessor :=
  ⟨some img1x2, some img1x2, some img1x2, [], []⟩

/-- Witness for C10 at a concrete loaded 1 × 2 image. -/
theorem c10_rotate_90_four_times_restores_witness :
    (stLoaded12.original_image = some img1x2 ∧ img1x2.WF) ∧
    ((rotate90cw img1x2).h = img1x2.w ∧ (rotate90cw img1x2).w = img1x2.h ∧
     (stLoaded12.rotate_90).2.original_image = some (rotate90cw img1x2) ∧
     ((stLoaded12.rotate_90).2.rotate_90).2.original_image
       = some (rotate90cw (rotate90cw img1x2)) ∧
     (((stLoaded12.rotate_90).2.rotate_90).2.rotate_90).2.original_image
       = some (rotate90cw (rotate90cw (rotate90cw img1x2))) ∧
     ((((stLoaded12.rotate_90).2.rotate_90).2.rotate_90).2.rotate_90).2.original_image
       = some img1x2) :=
  ⟨⟨rfl, by decide⟩,
   c10_rotate_90_four_times_restores stLoaded12 img1x2 rfl (by decide)⟩

/-- The C7 invariant for one state: the stored preview is derivable purely from
the current working image and some settings, for external primitives
honouring their shape contracts. -/
def RenderDerivable (st : ImageProcessor) : Prop :=
  ∃ (s : FilterSettings) (gaussianBlur : ℤ → Img → Img) (resize : Img → ℤ → ℤ → Img),
    BlurSpec gaussianBlur ∧ ResizeSpec resize ∧
    (st.apply_transformations gaussianBlur resize s).1 = st.current_image

theorem max_one_toNat_eq_two {x : ℤ} (h : (max 1 x).toNat = 2) : x = 2 := by
  rcases le_total 1 x with hx | hx
  · rw [max_eq_right hx] at h
    omega
  · rw [max_eq_left hx] at h
    omega

/-- The processor state right after loading a 1 × 2 image and rotating once:
its working image is 2 × 1 but its stored preview is still the stale 1 × 2
image from the load. -/
def stStale : ImageProcessor :=
  ((ImageProcessor.load_file (some img1x2) ImageProcessor.new).2.rotate_90).2

/-- Counterexample to C7: immediately after a destructive edit the stored
preview is stale — in `stStale` no settings (and no shape-respecting external
primitives) can re-derive the stored 1 × 2 preview from the rotated 2 × 1
working image, because every pipeline output would need width
`trunc(scale/100) = 2` and height `trunc(2 * scale/100) = 1` simultaneously. -/
theorem c7_counterexample : ¬ RenderDerivable stStale := by
  rintro ⟨s, gaussianBlur, resize, hb, hres, heq⟩
  rw [ImageProcessor.apply_transformations_loaded gaussianBlur resize s stStale
    (rotate90cw (swapRB img1x2)) rfl] at heq
  have heq2 : resizeStage resize s (adjustStage gaussianBlur s (rotate90cw (swapRB img1x2)))
      = swapRB img1x2 := Option.some.inj heq
  by_cases hsc : s.scale = 100
  · have hh : (resizeStage resize s
        (adjustStage gaussianBlur s (rotate90cw (swapRB img1x2)))).h
        = (adjustStage gaussianBlur s (rotate90cw (swapRB img1x2))).h := by
      rw [resizeStage_id resize s _ hsc]
    rw [heq2, adjustStage_h gaussianBlur hb s _] at hh
    exact absurd hh (by decide)
  · obtain ⟨hdw, hdh⟩ := resizeStage_dims resize hres s
      (adjustStage gaussianBlur s (rotate90cw (swapRB img1x2))) hsc
    rw [adjustStage_w gaussianBlur hb s _] at hdw
    rw [adjustStage_h gaussianBlur hb s _] at hdh
    rw [heq2] at hdw hdh
    rw [show (rotate90cw (swapRB img1x2)).w = 1 from rfl] at hdw
    rw [show (rotate90cw (swapRB img1x2)).h = 2 from rfl] at hdh
    rw [show (swapRB img1x2).w = 2 from rfl] at hdw
    rw [show (swapRB img1x2).h = 1 from rfl] at hdh
    rw [Nat.cast_one, one_mul] at hdw
    have hx2 : pyInt ((s.scale : ℚ) / 100) = 2 := max_one_toNat_eq_two hdw.symm
    obtain ⟨hlo, _⟩ := pyInt_pos_bounds (by omega) hx2
    have hs200 : (200 : ℤ) ≤ s.scale := by
      rw [le_div_iff₀ (by norm_num : (0 : ℚ) < 100)] at hlo
      exact_mod_cast hlo
    have hq4 : (4 : ℚ) ≤ ((2 : ℕ) : ℚ) * (s.scale : ℚ) / 100 := by
      rw [le_div_iff₀ (by norm_num : (0 : ℚ) < 100)]
      push_cast
      have : (200 : ℚ) ≤ (s.scale : ℚ) := by exact_mod_cast hs200
      linarith
    have hy4 : (4 : ℤ) ≤ pyInt (((2 : ℕ) : ℚ) * (s.scale : ℚ) / 100) :=
      le_pyInt_of_le (by omega) hq4
    rw [max_eq_right (by omega : (1 : ℤ) ≤ pyInt (((2 : ℕ) : ℚ) * (s.scale : ℚ) / 100))]
      at hdh
    omega

/-- C7 as amended: the derivability invariant holds immediately after
`apply_transformations` (the stored preview is exactly the pipeline output for
the settings just used), but `rotate_90`, `flip`, `apply_canny_edge` and
`revert_to_original` leave the stored preview unchanged — stale — rather than
re-deriving it, so the invariant can fail right after them until the next
render. -/
theorem c7_amended_preview_updated_only_by_render
    (gaussianBlur : ℤ → Img → Img) (resize : Img → ℤ → ℤ → Img)
    (hb : BlurSpec gaussianBlur) (hres : ResizeSpec resize)
    (s : FilterSettings) (st : ImageProcessor) (img : Img)
    (mode : ℤ) (canny : GImg → GImg)
    (hbase : st.original_image = some img) :
    RenderDerivable (st.apply_transformations gaussianBlur resize s).2 ∧
    (st.rotate_90).2.current_image = st.current_image ∧
    (st.flip mode).2.current_image = st.current_image ∧
    (st.apply_canny_edge canny).2.current_image = st.current_image ∧
    (st.revert_to_original).2.current_image = st.current_image := by
  refine ⟨⟨s, gaussianBlur, resize, hb, hres, ?_⟩, ?_, ?_, ?_, ?_⟩
  · have hbase2 : (st.apply_transformations gaussianBlur resize s).2.original_image
        = some img := by
      rw [ImageProcessor.apply_transformations_loaded gaussianBlur resize s st img hbase]
      exact hbase
    rw [ImageProcessor.apply_transformations_loaded gaussianBlur resize s
        ((st.apply_transformations gaussianBlur resize s).2) img hbase2,
      ImageProcessor.apply_transformations_loaded gaussianBlur resize s st img hbase]
  · rw [ImageProcessor.rotate_90_loaded st img hbase]
    rfl
  · rw [ImageProcessor.flip_loaded mode st img hbase]
    rfl
  · rw [ImageProcessor.apply_canny_edge_loaded canny st img hbase]
    rfl
  · unfold ImageProcessor.revert_to_original
    rcases htrue : st.true_original with _ | orig <;> simp [htrue]

/-- Witness for the amended C7 at a concrete loaded processor, default
settings and the stand-in primitives. -/
theorem c7_amended_preview_updated_only_by_render_witness :
    (BlurSpec blurStub ∧ ResizeSpec resizeStub ∧
     stLoaded1.original_image = some img1x1) ∧
    (RenderDerivable
        (stLoaded1.apply_transformations blurStub resizeStub FilterSettings.defaults).2 ∧
     (stLoaded1.rotate_90).2.current_image = stLoaded1.current_image ∧
     (stLoaded1.flip 1).2.current_image = stLoaded1.current_image ∧
     (stLoaded1.apply_canny_edge id).2.current_image = stLoaded1.current_image ∧
     (stLoaded1.revert_to_original).2.current_image = stLoaded1.current_image) :=
  ⟨⟨blurStub_spec, resizeStub_spec, rfl⟩,
   c7_amended_preview_updated_only_by_render blurStub resizeStub blurStub_spec
     resizeStub_spec FilterSettings.defaults stLoaded1 img1x1 1 id rfl⟩
